import Mathlib

/-!
Verification of the pagination/reflow reader core.

Shallow embedding of the repository's source:
- `src/paginate.ts`   → namespace `Paginate`
- the element-collection paginate variants (map-based) → namespace `PaginateC`
- `src/storage.ts`    → namespace `Storage`
- `src/App.tsx`       → namespace `AppM`
- `src/pdf.ts` data model (Token / Paragraph / LoadResult)

Layout geometry (DOM reads) is modelled explicitly: a rendered token element
carries the numeric value of its data-idx attribute (`none` = attribute absent
or non-numeric), the left edges of its client rects, and its bounding-rect
left.  All pixel quantities are integers; JavaScript `Math.floor(a / b)` on
integer inputs is integer flooring division (`Int.fdiv`) and
`Math.ceil(a / b)` is `-((-a).fdiv b)`.
-/

/-- JS `Math.floor(a / b)` for integer `a`, `b`: flooring integer division. -/
def jsFloorDiv (a b : Int) : Int := Int.fdiv a b

/-- JS `Math.ceil(a / b)` for integer `a`, `b`: ceiling integer division. -/
def jsCeilDiv (a b : Int) : Int := -(Int.fdiv (-a) b)

/-- `clamp` from App.tsx: `Math.min(Math.max(value, min), max)`. -/
def clamp (value lo hi : Int) : Int := min (max value lo) hi

/-- `Token` from pdf.ts: `{ idx: number; text: string }`. -/
structure Token where
  idx : Int
  text : String
deriving Repr, DecidableEq

/-- `Paragraph` from pdf.ts: `{ id: string; tokens: Token[] }`. -/
structure Paragraph where
  id : String
  tokens : List Token
deriving Repr, DecidableEq

/-- `LoadResult` from pdf.ts. -/
structure LoadResult where
  docId : String
  tokens : List Token
  paragraphs : List Paragraph
  title : Option String
deriving Repr, DecidableEq

/-- A rendered token element as the paginate functions observe it:
`dataIdx` is the numeric value of its `data-idx` attribute (`none` when the
attribute is absent or not numeric), `clientRectLefts` the left edges of
`getClientRects()` in order, `boundingLeft` the left edge of
`getBoundingClientRect()`. -/
structure Elem where
  dataIdx : Option Int
  clientRectLefts : List Int
  boundingLeft : Int
deriving Repr, DecidableEq

/-- The viewport element: the fields read by paginate.ts
(`clientWidth`, `scrollLeft`, and `getBoundingClientRect().left`). -/
structure Viewport where
  clientWidth : Int
  scrollLeft : Int
  rectLeft : Int
deriving Repr, DecidableEq

/-- The flow element: its `scrollWidth` and its rendered token elements in
document (= reading) order. -/
structure FlowEl where
  scrollWidth : Int
  elements : List Elem
deriving Repr, DecidableEq

namespace Paginate

/-- `getPageCount` from paginate.ts. -/
def getPageCount (viewport : Viewport) (flow : FlowEl) : Int :=
  let viewportWidth := max 1 viewport.clientWidth
  let totalWidth := flow.scrollWidth
  max 1 (jsCeilDiv totalWidth viewportWidth)

/-- `el.getClientRects()[0] ?? el.getBoundingClientRect()`, restricted to the
`.left` field (the only one read). -/
def rectLeftOf (el : Elem) : Int :=
  el.clientRectLefts.head?.getD el.boundingLeft

/-- `getTokenPageFromElement` from paginate.ts. -/
def getTokenPageFromElement (el : Elem) (viewport : Viewport) : Int :=
  let rectLeft := rectLeftOf el
  let relativeLeft := rectLeft - viewport.rectLeft + viewport.scrollLeft
  let width := max 1 viewport.clientWidth
  max 0 (jsFloorDiv relativeLeft width)

/-- `flow.querySelector('[data-idx="<tokenIdx>"]')`: the first element in
document order whose data-idx attribute equals the given number. -/
def querySelectorIdx (flow : FlowEl) (tokenIdx : Int) : Option Elem :=
  flow.elements.find? (fun el => el.dataIdx == some tokenIdx)

/-- `getTokenPageIndex` from paginate.ts. -/
def getTokenPageIndex (tokenIdx : Int) (flow : FlowEl) (viewport : Viewport) : Option Int :=
  match querySelectorIdx flow tokenIdx with
  | none => none
  | some el => some (getTokenPageFromElement el viewport)

/-- `findAnchorTokenIndex` from paginate.ts: scan the token list in order,
skip tokens with no rendered element, return the index of the first token
whose computed page equals `pageIndex`. -/
def findAnchorTokenIndex (tokens : List Token) (flow : FlowEl) (viewport : Viewport)
    (pageIndex : Int) : Option Int :=
  match tokens with
  | [] => none
  | token :: rest =>
    match querySelectorIdx flow token.idx with
    | none => findAnchorTokenIndex rest flow viewport pageIndex
    | some el =>
      if getTokenPageFromElement el viewport = pageIndex then some token.idx
      else findAnchorTokenIndex rest flow viewport pageIndex

/-- `countWordsForPage` from paginate.ts.  The source inlines the same
rect/offset/floor computation as `getTokenPageFromElement`; the count is a
natural number. -/
def countWordsForPage (tokens : List Token) (flow : FlowEl) (viewport : Viewport)
    (pageIndex : Int) : Nat :=
  match tokens with
  | [] => 0
  | token :: rest =>
    let restCount := countWordsForPage rest flow viewport pageIndex
    match querySelectorIdx flow token.idx with
    | none => restCount
    | some el =>
      let rect := rectLeftOf el
      let relativeLeft := rect - viewport.rectLeft + viewport.scrollLeft
      let width := max 1 viewport.clientWidth
      let tokenPage := max 0 (jsFloorDiv relativeLeft width)
      if tokenPage = pageIndex then restCount + 1 else restCount

end Paginate

namespace PaginateC

/-- `collectTokenElements(flow).ordered`: `querySelectorAll('[data-idx]')` in
document order.  In this model a present-but-non-numeric attribute is folded
into `dataIdx = none`, so `ordered` keeps the elements carrying a numeric
data-idx. -/
def ordered (flow : FlowEl) : List Elem :=
  flow.elements.filter (fun el => el.dataIdx.isSome)

/-- `collectTokenElements(flow).byIndex.get(tokenIdx)`: the map is built by
`Map.set` over the ordered elements, so a later element with the same index
overwrites an earlier one — lookup returns the last matching element. -/
def byIndexGet (flow : FlowEl) (tokenIdx : Int) : Option Elem :=
  (ordered flow).reverse.find? (fun el => el.dataIdx == some tokenIdx)

/-- Map-based `getTokenPageIndex` variant. -/
def getTokenPageIndex (tokenIdx : Int) (flow : FlowEl) (viewport : Viewport) : Option Int :=
  match byIndexGet flow tokenIdx with
  | none => none
  | some el => some (Paginate.getTokenPageFromElement el viewport)

/-- Loop body of the element-collection `findAnchorTokenIndex` variant: on a
page hit whose element has no numeric index the loop continues. -/
def findAnchorTokenIndexAux (els : List Elem) (viewport : Viewport)
    (pageIndex : Int) : Option Int :=
  match els with
  | [] => none
  | el :: rest =>
    if Paginate.getTokenPageFromElement el viewport = pageIndex then
      match el.dataIdx with
      | some idx => some idx
      | none => findAnchorTokenIndexAux rest viewport pageIndex
    else findAnchorTokenIndexAux rest viewport pageIndex

/-- Element-collection `findAnchorTokenIndex` variant. -/
def findAnchorTokenIndex (flow : FlowEl) (viewport : Viewport) (pageIndex : Int) : Option Int :=
  findAnchorTokenIndexAux (ordered flow) viewport pageIndex

/-- Loop body of the element-collection `countWordsForPage` variant. -/
def countWordsForPageAux (els : List Elem) (viewport : Viewport) (pageIndex : Int) : Nat :=
  match els with
  | [] => 0
  | el :: rest =>
    let restCount := countWordsForPageAux rest viewport pageIndex
    if Paginate.getTokenPageFromElement el viewport = pageIndex then restCount + 1
    else restCount

/-- Element-collection `countWordsForPage` variant. -/
def countWordsForPage (flow : FlowEl) (viewport : Viewport) (pageIndex : Int) : Nat :=
  countWordsForPageAux (ordered flow) viewport pageIndex

end PaginateC

namespace Storage

/-- A JSON field of a parsed persisted record: either a number or present
with a non-numeric value (string, object, ...). -/
inductive JsonField where
  | num (value : Int)
  | nonNum
deriving Repr, DecidableEq

/-- The parsed shape of a persisted record, before the type check of
`restoreReadingState`. -/
structure StoredRecord where
  pageIndex : JsonField
  fontSizePx : JsonField
deriving Repr, DecidableEq

/-- `ReadingState` from storage.ts. -/
structure ReadingState where
  pageIndex : Int
  fontSizePx : Int
deriving Repr, DecidableEq

/-- The local storage as observed through `getItem` + `JSON.parse`: for a
full key, `none` models a missing key, an empty value, or a value that fails
to parse (the catch branch); `some record` a successfully parsed object. -/
def Store := String → Option StoredRecord

/-- `restoreReadingState` from storage.ts: look up key
`"reflow-reader:" ++ docId`; return the record only when both fields are
numbers, otherwise `none`. -/
def restoreReadingState (store : Store) (docId : String) : Option ReadingState :=
  match store ("reflow-reader:" ++ docId) with
  | none => none
  | some parsed =>
    match parsed.pageIndex, parsed.fontSizePx with
    | .num p, .num f => some { pageIndex := p, fontSizePx := f }
    | _, _ => none

end Storage

namespace AppM

/-- `DEFAULT_FONT_SIZE` from App.tsx. -/
def DEFAULT_FONT_SIZE : Int := 18

/-- `MIN_FONT` from App.tsx. -/
def MIN_FONT : Int := 14

/-- `MAX_FONT` from App.tsx. -/
def MAX_FONT : Int := 26

/-- The App component's state: the `useState` cells plus the two single-slot
refs (`pendingPageRef`, `anchorTokenRef`). -/
structure AppState where
  tokens : List Token
  paragraphs : List Paragraph
  docId : Option String
  docTitle : Option String
  pageCount : Int
  pageIndex : Int
  fontSize : Int
  wordsOnPage : Nat
  loadingProgress : Int
  isLoading : Bool
  error : Option String
  pendingPage : Option Int
  anchorToken : Option Int
deriving Repr, DecidableEq

/-- The initial `useState` / ref values of the App component. -/
def initialAppState : AppState where
  tokens := []
  paragraphs := []
  docId := none
  docTitle := none
  pageCount := 1
  pageIndex := 0
  fontSize := DEFAULT_FONT_SIZE
  wordsOnPage := 0
  loadingProgress := 0
  isLoading := false
  error := none
  pendingPage := none
  anchorToken := none

/-- The index `scrollToPage` scrolls to:
`clamp(index, 0, Math.max(0, pageCount - 1))`. -/
def scrollToPageClampedIndex (pageCount index : Int) : Int :=
  clamp index 0 (max 0 (pageCount - 1))

/-- Result of one run of the settle `useLayoutEffect` in App.tsx: the new
page count, the selected target page, the recomputed word count, and the
final contents of the two single-slot refs. -/
structure SettleResult where
  pageCount : Int
  pageIndex : Int
  wordsOnPage : Nat
  pendingPage : Option Int
  anchorToken : Option Int
deriving Repr, DecidableEq

/-- The settle `useLayoutEffect` from App.tsx (lines 136-166).  When the
token list is empty the effect resets `pageCount` to 1 and `wordsOnPage` to 0
and returns early (refs and page index untouched).  Otherwise the target page
is the previous page clamped, overridden by a pending page index (consumed)
or else by a resolved anchor token (consumed; on resolution failure the
clamped previous page stands). -/
def settle (tokens : List Token) (prevPageIndex : Int)
    (pendingPage anchorToken : Option Int)
    (flow : FlowEl) (viewport : Viewport) : SettleResult :=
  if tokens = [] then
    { pageCount := 1, pageIndex := prevPageIndex, wordsOnPage := 0,
      pendingPage := pendingPage, anchorToken := anchorToken }
  else
    let newPageCount := Paginate.getPageCount viewport flow
    match pendingPage with
    | some p =>
      let targetPage := clamp p 0 (newPageCount - 1)
      { pageCount := newPageCount, pageIndex := targetPage,
        wordsOnPage := Paginate.countWordsForPage tokens flow viewport targetPage,
        pendingPage := none, anchorToken := anchorToken }
    | none =>
      match anchorToken with
      | some a =>
        let targetPage :=
          match Paginate.getTokenPageIndex a flow viewport with
          | some anchorPage => clamp anchorPage 0 (newPageCount - 1)
          | none => clamp prevPageIndex 0 (newPageCount - 1)
        { pageCount := newPageCount, pageIndex := targetPage,
          wordsOnPage := Paginate.countWordsForPage tokens flow viewport targetPage,
          pendingPage := none, anchorToken := none }
      | none =>
        let targetPage := clamp prevPageIndex 0 (newPageCount - 1)
        { pageCount := newPageCount, pageIndex := targetPage,
          wordsOnPage := Paginate.countWordsForPage tokens flow viewport targetPage,
          pendingPage := none, anchorToken := none }

/-- `loadResultIntoState` from App.tsx: install the load result wholesale,
then either restore the persisted reading state (font size taken as-is,
page index marked pending) or fall back to the defaults. -/
def loadResultIntoState (store : Storage.Store) (s : AppState)
    (result : LoadResult) : AppState :=
  let s1 : AppState :=
    { s with tokens := result.tokens, paragraphs := result.paragraphs,
             docId := some result.docId, docTitle := result.title }
  match Storage.restoreReadingState store result.docId with
  | some restored =>
    { s1 with fontSize := restored.fontSizePx,
              pendingPage := some restored.pageIndex,
              pageIndex := restored.pageIndex }
  | none =>
    { s1 with fontSize := DEFAULT_FONT_SIZE,
              pendingPage := some 0,
              pageIndex := 0 }

/-- What `handleLoad` catches: an `Error` object (whose `.message` is shown)
or any other thrown value. -/
inductive ThrownError where
  | jsError (message : String)
  | nonError
deriving Repr, DecidableEq

/-- `err instanceof Error ? err.message : 'Failed to load PDF'`. -/
def errorMessage : ThrownError → String
  | .jsError msg => msg
  | .nonError => "Failed to load PDF"

/-- The synchronous prefix of `handleLoad`, run when a load starts:
`setIsLoading(true); setError(null); setLoadingProgress(0)`. -/
def loadStart (s : AppState) : AppState :=
  { s with isLoading := true, error := none, loadingProgress := 0 }

/-- The success continuation of `handleLoad`, run when the loader's promise
resolves: `loadResultIntoState(result); setLoadingProgress(1)` and the
`finally` clause `setIsLoading(false)`.  The source applies this
unconditionally — there is no check that the resolving load is still the
most recently started one. -/
def loadComplete (store : Storage.Store) (s : AppState) (result : LoadResult) : AppState :=
  { loadResultIntoState store s result with loadingProgress := 1, isLoading := false }

/-- The catch branch of `handleLoad` plus its `finally` clause. -/
def loadFail (s : AppState) (err : ThrownError) : AppState :=
  { s with error := some (errorMessage err), tokens := [], paragraphs := [],
           docId := none, docTitle := none, wordsOnPage := 0, isLoading := false }

/-- One observable event of the load subsystem: a `handleLoad` call starting,
or an in-flight loader resolving / rejecting.  Several loads may interleave;
the component processes the events in order on the UI thread. -/
inductive LoadEvent where
  | start
  | complete (result : LoadResult)
  | fail (err : ThrownError)
deriving Repr

/-- Apply one load event to the state, exactly as `handleLoad` does. -/
def applyLoadEvent (store : Storage.Store) (s : AppState) : LoadEvent → AppState
  | .start => loadStart s
  | .complete result => loadComplete store s result
  | .fail err => loadFail s err

/-- Run a sequence of interleaved load events. -/
def runLoadEvents (store : Storage.Store) (s : AppState)
    (events : List LoadEvent) : AppState :=
  events.foldl (applyLoadEvent store) s

/-- A whole uninterleaved `handleLoad` call as a function of its loader's
outcome. -/
def handleLoad (store : Storage.Store) (s : AppState)
    (outcome : Except ThrownError LoadResult) : AppState :=
  match outcome with
  | .ok result => loadComplete store (loadStart s) result
  | .error err => loadFail (loadStart s) err

end AppM

/-! ### Concrete fixtures used by witnesses and counterexamples -/

/-- A 800px-wide viewport at origin, unscrolled. -/
def sampleViewport : Viewport := { clientWidth := 800, scrollLeft := 0, rectLeft := 0 }

/-- Three rendered token elements at lefts 0, 800 and 1600 (pages 0, 1, 2). -/
def sampleFlow : FlowEl :=
  { scrollWidth := 2400,
    elements :=
      [ { dataIdx := some 0, clientRectLefts := [0], boundingLeft := 0 },
        { dataIdx := some 1, clientRectLefts := [800], boundingLeft := 800 },
        { dataIdx := some 2, clientRectLefts := [1600], boundingLeft := 1600 } ] }

/-- The token list rendered into `sampleFlow`. -/
def sampleTokens : List Token :=
  [ { idx := 0, text := "alpha" }, { idx := 1, text := "beta" },
    { idx := 2, text := "gamma" } ]

/-- The local storage with no usable persisted record. -/
def emptyStore : Storage.Store := fun _ => none

/-- A loaded document "doc-A" over the sample tokens. -/
def loadResultA : LoadResult :=
  { docId := "doc-A", tokens := sampleTokens,
    paragraphs := [{ id := "p-0-0", tokens := sampleTokens }],
    title := some "Document A" }

/-- The local storage holding `{pageIndex: 0, fontSizePx: 100}` for
"doc-A" — a well-shaped record whose font size is far outside 14–26. -/
def storeWithBigFont : Storage.Store := fun key =>
  if key = "reflow-reader:doc-A" then
    some { pageIndex := Storage.JsonField.num 0,
           fontSizePx := Storage.JsonField.num 100 }
  else none

/-! ### Helper lemmas -/

/-- For a positive divisor, the JS `Math.ceil(a / b)` embedding agrees with
the mathematical ceiling of the rational quotient. -/
lemma jsCeilDiv_eq_ceil (a b : Int) (hb : 0 < b) :
    jsCeilDiv a b = ⌈(a : ℚ) / (b : ℚ)⌉ := by
  have hb0 : (0 : Int) ≤ b := le_of_lt hb
  have h1 : jsCeilDiv a b = -((-a) / b) := by
    unfold jsCeilDiv
    rw [Int.fdiv_eq_ediv _ hb0]
  have h2 : ((b.toNat : ℕ) : ℚ) = (b : ℚ) := by
    exact_mod_cast Int.toNat_of_nonneg hb0
  have h3 : ⌊((-a : Int) : ℚ) / ((b.toNat : ℕ) : ℚ)⌋ = (-a) / ((b.toNat : ℕ) : Int) :=
    Rat.floor_intCast_div_natCast (-a) b.toNat
  have h4 : ⌈(a : ℚ) / (b : ℚ)⌉ = -⌊-((a : ℚ) / (b : ℚ))⌋ := by
    rw [Int.floor_neg, neg_neg]
  have h5 : -((a : ℚ) / (b : ℚ)) = ((-a : Int) : ℚ) / ((b.toNat : ℕ) : ℚ) := by
    rw [h2]; push_cast; ring
  have h6 : ((b.toNat : ℕ) : Int) = b := Int.toNat_of_nonneg hb0
  rw [h1, h4, h5, h3, h6]

/-- `getPageCount`, with its local lets unfolded. -/
lemma getPageCount_eq (viewport : Viewport) (flow : FlowEl) :
    Paginate.getPageCount viewport flow =
      max 1 (jsCeilDiv flow.scrollWidth (max 1 viewport.clientWidth)) := rfl

/-- `getPageCount` is at least 1, unconditionally. -/
lemma one_le_getPageCount (viewport : Viewport) (flow : FlowEl) :
    1 ≤ Paginate.getPageCount viewport flow :=
  le_max_left 1 _

/-! ### Claims -/

/-- C1: `getPageCount` equals `max 1 ⌈extent / max 1 width⌉`; for nonnegative
width and extent it is at least 1; it equals `⌈extent / width⌉` whenever both
are positive; and it is a pure function of the two extents. -/
theorem getPageCount_spec (viewport : Viewport) (flow : FlowEl)
    (hw : 0 ≤ viewport.clientWidth) (he : 0 ≤ flow.scrollWidth) :
    Paginate.getPageCount viewport flow =
      max 1 ⌈(flow.scrollWidth : ℚ) / ((max 1 viewport.clientWidth : Int) : ℚ)⌉ ∧
    1 ≤ Paginate.getPageCount viewport flow ∧
    (0 < viewport.clientWidth → 0 < flow.scrollWidth →
      Paginate.getPageCount viewport flow =
        ⌈(flow.scrollWidth : ℚ) / (viewport.clientWidth : ℚ)⌉) ∧
    (∀ (v2 : Viewport) (f2 : FlowEl), v2.clientWidth = viewport.clientWidth →
      f2.scrollWidth = flow.scrollWidth →
      Paginate.getPageCount v2 f2 = Paginate.getPageCount viewport flow) := by
  have hpos : (0 : Int) < max 1 viewport.clientWidth :=
    lt_of_lt_of_le Int.zero_lt_one (le_max_left 1 _)
  refine ⟨?_, one_le_getPageCount viewport flow, ?_, ?_⟩
  · rw [getPageCount_eq, jsCeilDiv_eq_ceil _ _ hpos]
  · intro hw1 he1
    have hmax : max 1 viewport.clientWidth = viewport.clientWidth :=
      max_eq_right hw1
    have hq : (0 : ℚ) < (flow.scrollWidth : ℚ) / (viewport.clientWidth : ℚ) := by
      apply div_pos <;> exact_mod_cast ‹_›
    have hceil : 1 ≤ ⌈(flow.scrollWidth : ℚ) / (viewport.clientWidth : ℚ)⌉ :=
      Int.ceil_pos.mpr hq
    rw [getPageCount_eq, hmax, jsCeilDiv_eq_ceil _ _ hw1]
    exact max_eq_right hceil
  · intro v2 f2 hv hf
    rw [getPageCount_eq, getPageCount_eq, hv, hf]

/-- C3: anchor round-trip under an unchanged layout: when
`findAnchorTokenIndex` returns a token index for a page, resolving that token
against the same layout yields the same page. -/
theorem findAnchor_roundTrip (tokens : List Token) (flow : FlowEl)
    (viewport : Viewport) (pageIndex t : Int)
    (h : Paginate.findAnchorTokenIndex tokens flow viewport pageIndex = some t) :
    Paginate.getTokenPageIndex t flow viewport = some pageIndex := by
  induction tokens with
  | nil => simp [Paginate.findAnchorTokenIndex] at h
  | cons token rest ih =>
    rw [Paginate.findAnchorTokenIndex] at h
    cases hq : Paginate.querySelectorIdx flow token.idx with
    | none =>
      simp only [hq] at h
      exact ih h
    | some el =>
      simp only [hq] at h
      by_cases hp : Paginate.getTokenPageFromElement el viewport = pageIndex
      · rw [if_pos hp] at h
        injection h with h
        subst h
        simp [Paginate.getTokenPageIndex, hq, hp]
      · rw [if_neg hp] at h
        exact ih h

/-- Witness for C3: on the sample layout the anchor for page 1 is token 1,
and it resolves back to page 1. -/
theorem findAnchor_roundTrip_witness :
    Paginate.findAnchorTokenIndex sampleTokens sampleFlow sampleViewport 1 = some 1 ∧
    Paginate.getTokenPageIndex 1 sampleFlow sampleViewport = some 1 :=
  ⟨by decide,
    findAnchor_roundTrip sampleTokens sampleFlow sampleViewport 1 1 (by decide)⟩

/-- C2: the settle effect's page-selection precedence: a pending page index
wins (clamped); else a set anchor token resolves to a page (clamped), with
the clamped previous page as fallback when resolution fails; else the
previous page is kept, clamped.  `settle` is total, so a measurement miss
never escapes as an exception. -/
theorem settle_precedence (tokens : List Token) (prevPageIndex : Int)
    (pendingPage anchorToken : Option Int) (flow : FlowEl) (viewport : Viewport)
    (h : tokens ≠ []) :
    (∀ p, pendingPage = some p →
      (AppM.settle tokens prevPageIndex pendingPage anchorToken flow viewport).pageIndex =
        clamp p 0 (Paginate.getPageCount viewport flow - 1)) ∧
    (∀ a, pendingPage = none → anchorToken = some a →
      (∀ q, Paginate.getTokenPageIndex a flow viewport = some q →
        (AppM.settle tokens prevPageIndex pendingPage anchorToken flow viewport).pageIndex =
          clamp q 0 (Paginate.getPageCount viewport flow - 1)) ∧
      (Paginate.getTokenPageIndex a flow viewport = none →
        (AppM.settle tokens prevPageIndex pendingPage anchorToken flow viewport).pageIndex =
          clamp prevPageIndex 0 (Paginate.getPageCount viewport flow - 1))) ∧
    (pendingPage = none → anchorToken = none →
      (AppM.settle tokens prevPageIndex pendingPage anchorToken flow viewport).pageIndex =
        clamp prevPageIndex 0 (Paginate.getPageCount viewport flow - 1)) := by
  refine ⟨?_, ?_, ?_⟩
  · intro p hp
    subst hp
    simp [AppM.settle, if_neg h]
  · intro a hpn han
    subst hpn han
    constructor
    · intro q hq
      simp [AppM.settle, if_neg h, hq]
    · intro hq
      simp [AppM.settle, if_neg h, hq]
  · intro hpn han
    subst hpn han
    simp [AppM.settle, if_neg h]

/-- Witness for C2: on the sample layout a pending page 7 is selected
clamped into range. -/
theorem settle_precedence_witness :
    sampleTokens ≠ [] ∧
    (AppM.settle sampleTokens 0 (some 7) none sampleFlow sampleViewport).pageIndex =
      clamp 7 0 (Paginate.getPageCount sampleViewport sampleFlow - 1) :=
  ⟨by decide,
    (settle_precedence sampleTokens 0 (some 7) none sampleFlow sampleViewport
      (by decide)).1 7 rfl⟩

/-- After a settle with a loaded document, the result's page count is the
freshly computed one and the selected page is a clamp into its range. -/
lemma settle_shape (tokens : List Token) (prevPageIndex : Int)
    (pendingPage anchorToken : Option Int) (flow : FlowEl) (viewport : Viewport)
    (h : tokens ≠ []) :
    (AppM.settle tokens prevPageIndex pendingPage anchorToken flow viewport).pageCount =
      Paginate.getPageCount viewport flow ∧
    ∃ x, (AppM.settle tokens prevPageIndex pendingPage anchorToken flow viewport).pageIndex =
      clamp x 0 (Paginate.getPageCount viewport flow - 1) := by
  cases pendingPage with
  | some p =>
    exact ⟨by simp [AppM.settle, if_neg h], p, by simp [AppM.settle, if_neg h]⟩
  | none =>
    cases anchorToken with
    | some a =>
      cases hq : Paginate.getTokenPageIndex a flow viewport with
      | some q =>
        exact ⟨by simp [AppM.settle, if_neg h], q, by simp [AppM.settle, if_neg h, hq]⟩
      | none =>
        exact ⟨by simp [AppM.settle, if_neg h], prevPageIndex,
          by simp [AppM.settle, if_neg h, hq]⟩
    | none =>
      exact ⟨by simp [AppM.settle, if_neg h], prevPageIndex,
        by simp [AppM.settle, if_neg h]⟩

/-- `clamp value lo hi` lies in `[lo, hi]` when the interval is nonempty. -/
lemma clamp_mem (value lo hi : Int) (hlohi : lo ≤ hi) :
    lo ≤ clamp value lo hi ∧ clamp value lo hi ≤ hi := by
  simp only [clamp, Int.max_def, Int.min_def]
  split_ifs <;> omega

/-- Over a nonempty range starting at 0, `clamp` is the spec's
`max(0, min(value, hi))`. -/
lemma clamp_eq_max_min (value hi : Int) (hhi : 0 ≤ hi) :
    clamp value 0 hi = max 0 (min value hi) := by
  simp only [clamp, Int.max_def, Int.min_def]
  split_ifs <;> omega

/-- C7: at every settle with a loaded document the selected page index lies
in `[0, pageCount-1]`; clamping is `max(0, min(value, pageCount-1))`; and the
index `scrollToPage` scrolls to is likewise never negative and never beyond
`pageCount - 1`. -/
theorem settle_pageIndex_range (tokens : List Token) (prevPageIndex : Int)
    (pendingPage anchorToken : Option Int) (flow : FlowEl) (viewport : Viewport)
    (h : tokens ≠ []) :
    (0 ≤ (AppM.settle tokens prevPageIndex pendingPage anchorToken flow viewport).pageIndex ∧
      (AppM.settle tokens prevPageIndex pendingPage anchorToken flow viewport).pageIndex ≤
        (AppM.settle tokens prevPageIndex pendingPage anchorToken flow viewport).pageCount - 1) ∧
    (∀ value pc : Int, 1 ≤ pc → clamp value 0 (pc - 1) = max 0 (min value (pc - 1))) ∧
    (∀ index pc : Int, 1 ≤ pc →
      0 ≤ AppM.scrollToPageClampedIndex pc index ∧
      AppM.scrollToPageClampedIndex pc index ≤ pc - 1) := by
  obtain ⟨hpc, x, hx⟩ :=
    settle_shape tokens prevPageIndex pendingPage anchorToken flow viewport h
  have hone : 1 ≤ Paginate.getPageCount viewport flow := one_le_getPageCount viewport flow
  refine ⟨?_, ?_, ?_⟩
  · rw [hx, hpc]
    exact clamp_mem x 0 (Paginate.getPageCount viewport flow - 1) (by omega)
  · intro value pc hpc1
    exact clamp_eq_max_min value (pc - 1) (by omega)
  · intro index pc hpc1
    have hmax : max 0 (pc - 1) = pc - 1 := max_eq_right (by omega)
    unfold AppM.scrollToPageClampedIndex
    rw [hmax]
    exact clamp_mem index 0 (pc - 1) (by omega)

/-- Witness for C7: Scenario D — pending page 7 with page count 3 settles on
page 2 of the sample layout. -/
theorem settle_pageIndex_range_witness :
    sampleTokens ≠ [] ∧
    (0 ≤ (AppM.settle sampleTokens 0 (some 7) none sampleFlow sampleViewport).pageIndex ∧
      (AppM.settle sampleTokens 0 (some 7) none sampleFlow sampleViewport).pageIndex ≤
        (AppM.settle sampleTokens 0 (some 7) none sampleFlow sampleViewport).pageCount - 1) :=
  ⟨by decide,
    (settle_pageIndex_range sampleTokens 0 (some 7) none sampleFlow sampleViewport
      (by decide)).1⟩

/-- C8 counterexample: a settle that consumes a pending page index leaves a
simultaneously captured anchor token in its slot — the anchor slot does not
end up cleared on every layout-affecting settle. -/
theorem settle_anchor_not_cleared :
    (AppM.settle sampleTokens 0 (some 0) (some 5) sampleFlow sampleViewport).anchorToken =
      some 5 := by decide

/-- C8 (amended): after a settle with a loaded document the pending-page
slot is always cleared; the anchor slot is cleared whenever no pending page
was set, and is left unchanged when a pending page was consumed. -/
theorem settle_anchor_slot (tokens : List Token) (prevPageIndex : Int)
    (pendingPage anchorToken : Option Int) (flow : FlowEl) (viewport : Viewport)
    (h : tokens ≠ []) :
    (AppM.settle tokens prevPageIndex pendingPage anchorToken flow viewport).pendingPage =
      none ∧
    (pendingPage = none →
      (AppM.settle tokens prevPageIndex pendingPage anchorToken flow viewport).anchorToken =
        none) ∧
    (∀ p, pendingPage = some p →
      (AppM.settle tokens prevPageIndex pendingPage anchorToken flow viewport).anchorToken =
        anchorToken) := by
  refine ⟨?_, ?_, ?_⟩
  · cases pendingPage with
    | some p => simp [AppM.settle, if_neg h]
    | none =>
      cases anchorToken with
      | some a =>
        cases hq : Paginate.getTokenPageIndex a flow viewport with
        | some q => simp [AppM.settle, if_neg h, hq]
        | none => simp [AppM.settle, if_neg h, hq]
      | none => simp [AppM.settle, if_neg h]
  · intro hpn
    subst hpn
    cases anchorToken with
    | some a =>
      cases hq : Paginate.getTokenPageIndex a flow viewport with
      | some q => simp [AppM.settle, if_neg h, hq]
      | none => simp [AppM.settle, if_neg h, hq]
    | none => simp [AppM.settle, if_neg h]
  · intro p hp
    subst hp
    simp [AppM.settle, if_neg h]

/-- Witness for C8 (amended): a settle with an anchor and no pending page
clears the anchor slot. -/
theorem settle_anchor_slot_witness :
    sampleTokens ≠ [] ∧
    (AppM.settle sampleTokens 0 none (some 1) sampleFlow sampleViewport).anchorToken =
      none :=
  ⟨by decide,
    (settle_anchor_slot sampleTokens 0 none (some 1) sampleFlow sampleViewport
      (by decide)).2.1 rfl⟩

/-- C9: a failed load resets the token stream, paragraphs, document id,
title and word count, surfaces the thrown error's message (with a default
text for non-Error throws), and ends with loading off; `handleLoad` runs its
loader exactly once, so there is no automatic retry. -/
theorem handleLoad_failure_resets (store : Storage.Store) (s : AppM.AppState)
    (err : AppM.ThrownError) :
    (AppM.handleLoad store s (Except.error err)).tokens = [] ∧
    (AppM.handleLoad store s (Except.error err)).paragraphs = [] ∧
    (AppM.handleLoad store s (Except.error err)).docId = none ∧
    (AppM.handleLoad store s (Except.error err)).docTitle = none ∧
    (AppM.handleLoad store s (Except.error err)).wordsOnPage = 0 ∧
    (AppM.handleLoad store s (Except.error err)).error =
      some (AppM.errorMessage err) ∧
    (AppM.handleLoad store s (Except.error err)).isLoading = false :=
  ⟨rfl, rfl, rfl, rfl, rfl, rfl, rfl⟩

/-- C4: evaluating the failing interleaving — load A starts, load B starts,
then A's result arrives; `handleLoad` has no staleness check, so the stale
result is applied wholesale (docId and tokens become A's) instead of being
discarded as the claim requires. -/
theorem staleLoad_applied :
    (AppM.runLoadEvents emptyStore AppM.initialAppState
        [AppM.LoadEvent.start, AppM.LoadEvent.start,
         AppM.LoadEvent.complete loadResultA]).docId = some "doc-A" ∧
    (AppM.runLoadEvents emptyStore AppM.initialAppState
        [AppM.LoadEvent.start, AppM.LoadEvent.start,
         AppM.LoadEvent.complete loadResultA]).tokens = loadResultA.tokens :=
  ⟨rfl, rfl⟩

/-- C5 counterexample: restoring a record with `fontSizePx = 100` makes the
current font size 100, above the 26 px maximum — the restored value is not
clamped before use. -/
theorem restoredFontSize_not_clamped :
    (AppM.loadResultIntoState storeWithBigFont AppM.initialAppState
        loadResultA).fontSize = 100 ∧
    ¬ (AppM.loadResultIntoState storeWithBigFont AppM.initialAppState
        loadResultA).fontSize ≤ AppM.MAX_FONT := by
  refine ⟨?_, ?_⟩ <;> decide

/-- C5 (amended): a restored reading state is used only when both persisted
fields are numbers (malformed records fall back to the defaults), but the
restored `fontSizePx` is installed as the current font size as-is, without
clamping to the 14–26 range. -/
theorem restoredFontSize_used_asIs (store : Storage.Store) (s : AppM.AppState)
    (result : LoadResult) :
    (∀ restored, Storage.restoreReadingState store result.docId = some restored →
      (AppM.loadResultIntoState store s result).fontSize = restored.fontSizePx ∧
      (AppM.loadResultIntoState store s result).pendingPage =
        some restored.pageIndex) ∧
    (Storage.restoreReadingState store result.docId = none →
      (AppM.loadResultIntoState store s result).fontSize = AppM.DEFAULT_FONT_SIZE ∧
      (AppM.loadResultIntoState store s result).pendingPage = some 0) := by
  constructor
  · intro restored hr
    simp [AppM.loadResultIntoState, hr]
  · intro hr
    simp [AppM.loadResultIntoState, hr]

/-- Witness for C5 (amended): the 100 px record is restored and used as-is. -/
theorem restoredFontSize_used_asIs_witness :
    Storage.restoreReadingState storeWithBigFont "doc-A" =
      some { pageIndex := 0, fontSizePx := 100 } ∧
    (AppM.loadResultIntoState storeWithBigFont AppM.initialAppState
        loadResultA).fontSize = 100 :=
  ⟨by decide,
    ((restoredFontSize_used_asIs storeWithBigFont AppM.initialAppState
        loadResultA).1 { pageIndex := 0, fontSizePx := 100 } (by decide)).1⟩

/-- Unrolling `countWordsForPage` one token: the token contributes 1 exactly
when its resolved page equals the queried page. -/
lemma countWordsForPage_cons (token : Token) (rest : List Token) (flow : FlowEl)
    (viewport : Viewport) (pageIndex : Int) :
    Paginate.countWordsForPage (token :: rest) flow viewport pageIndex =
      (if Paginate.getTokenPageIndex token.idx flow viewport = some pageIndex
        then 1 else 0)
        + Paginate.countWordsForPage rest flow viewport pageIndex := by
  rw [Paginate.countWordsForPage]
  cases hq : Paginate.querySelectorIdx flow token.idx with
  | none => simp [Paginate.getTokenPageIndex, hq]
  | some el =>
    simp only [hq, Paginate.getTokenPageIndex, Paginate.getTokenPageFromElement,
      Option.some.injEq]
    split <;> omega

/-- Pointwise sums of natural-valued maps split. -/
lemma sum_map_add {α : Type} (l : List α) (f g : α → Nat) :
    (l.map fun x => f x + g x).sum = (l.map f).sum + (l.map g).sum := by
  induction l with
  | nil => rfl
  | cons a l ih =>
    simp only [List.map_cons, List.sum_cons, ih]
    omega

/-- Summing the indicator of a single integer over `0, ..., n-1`. -/
lemma sum_indicator_range (n : Nat) (q : Int) (hq : 0 ≤ q) :
    ((List.range n).map fun (p : Nat) => if q = (p : Int) then 1 else 0).sum
      = if q < (n : Int) then 1 else 0 := by
  induction n with
  | zero =>
    simp only [List.range_zero, List.map_nil, List.sum_nil, Nat.cast_zero]
    rw [if_neg (by omega)]
  | succ n ih =>
    rw [List.range_succ, List.map_append, List.sum_append, ih]
    simp only [List.map_cons, List.map_nil, List.sum_cons, List.sum_nil]
    split_ifs <;> omega

/-- C6: word-count partition — when every rendered token's computed page
lies below the computed page count, the per-page word counts summed over all
pages equal the number of rendered tokens (tokens with an element in the
flow); no token is double-counted or dropped. -/
theorem countWords_partition (tokens : List Token) (flow : FlowEl)
    (viewport : Viewport)
    (h : ∀ t ∈ tokens, ∀ el, Paginate.querySelectorIdx flow t.idx = some el →
        Paginate.getTokenPageFromElement el viewport <
          Paginate.getPageCount viewport flow) :
    ((List.range (Paginate.getPageCount viewport flow).toNat).map
        fun (p : Nat) => Paginate.countWordsForPage tokens flow viewport (p : Int)).sum
      = (tokens.filter fun t =>
          (Paginate.querySelectorIdx flow t.idx).isSome).length := by
  induction tokens with
  | nil => simp [Paginate.countWordsForPage]
  | cons token rest ih =>
    have hrest := ih (fun t ht el hel => h t (List.mem_cons_of_mem _ ht) el hel)
    have hmap : ((List.range (Paginate.getPageCount viewport flow).toNat).map
          fun (p : Nat) => Paginate.countWordsForPage (token :: rest) flow viewport (p : Int))
        = (List.range (Paginate.getPageCount viewport flow).toNat).map
          fun (p : Nat) => (if Paginate.getTokenPageIndex token.idx flow viewport =
              some (p : Int) then 1 else 0)
            + Paginate.countWordsForPage rest flow viewport (p : Int) :=
      List.map_congr_left fun p _ => countWordsForPage_cons token rest flow viewport p
    rw [hmap, sum_map_add, hrest, List.filter_cons]
    cases hq : Paginate.querySelectorIdx flow token.idx with
    | none =>
      have hzero : ((List.range (Paginate.getPageCount viewport flow).toNat).map
            fun (p : Nat) => if Paginate.getTokenPageIndex token.idx flow viewport =
              some (p : Int) then 1 else 0)
          = (List.range (Paginate.getPageCount viewport flow).toNat).map
            fun _ => (0 : Nat) :=
        List.map_congr_left fun p _ => by simp [Paginate.getTokenPageIndex, hq]
      rw [hzero]
      simp [hq]
    | some el =>
      have hlt := h token (List.mem_cons_self token rest) el hq
      have h0 : (0 : Int) ≤ Paginate.getTokenPageFromElement el viewport :=
        le_max_left 0 _
      have hgi : Paginate.getTokenPageIndex token.idx flow viewport =
          some (Paginate.getTokenPageFromElement el viewport) := by
        simp [Paginate.getTokenPageIndex, hq]
      have hmap2 : ((List.range (Paginate.getPageCount viewport flow).toNat).map
            fun (p : Nat) => if Paginate.getTokenPageIndex token.idx flow viewport =
              some (p : Int) then 1 else 0)
          = (List.range (Paginate.getPageCount viewport flow).toNat).map
            fun (p : Nat) => if Paginate.getTokenPageFromElement el viewport = (p : Int)
              then 1 else 0 :=
        List.map_congr_left fun p _ => by rw [hgi]; simp
      have hcast : (((Paginate.getPageCount viewport flow).toNat : Nat) : Int) =
          Paginate.getPageCount viewport flow :=
        Int.toNat_of_nonneg (le_trans Int.one_nonneg (one_le_getPageCount viewport flow))
      rw [hmap2, sum_indicator_range _ _ h0, if_pos (hcast ▸ hlt)]
      simp only [hq, Option.isSome_some, if_pos]
      simp [List.length_cons]
      omega

/-- Witness for C6: on the sample layout the per-page counts over the three
pages sum to the number of rendered tokens. -/
theorem countWords_partition_witness :
    (∀ t ∈ sampleTokens, ∀ el,
        Paginate.querySelectorIdx sampleFlow t.idx = some el →
        Paginate.getTokenPageFromElement el sampleViewport <
          Paginate.getPageCount sampleViewport sampleFlow) ∧
    ((List.range (Paginate.getPageCount sampleViewport sampleFlow).toNat).map
        fun (p : Nat) =>
          Paginate.countWordsForPage sampleTokens sampleFlow sampleViewport
            (p : Int)).sum
      = (sampleTokens.filter fun t =>
          (Paginate.querySelectorIdx sampleFlow t.idx).isSome).length := by
  have hcond : ∀ t ∈ sampleTokens, ∀ el,
      Paginate.querySelectorIdx sampleFlow t.idx = some el →
      Paginate.getTokenPageFromElement el sampleViewport <
        Paginate.getPageCount sampleViewport sampleFlow := by
    intro t ht el hel
    have hmem : el ∈ sampleFlow.elements := List.mem_of_find?_eq_some hel
    fin_cases hmem <;> decide
  exact ⟨hcond, countWords_partition sampleTokens sampleFlow sampleViewport hcond⟩

/-- A filter keeping everything the searched-for predicate can match does
not change the result of `find?`. -/
lemma find?_filter_of_imp {α : Type} (l : List α) (p q : α → Bool)
    (himp : ∀ x, p x = true → q x = true) :
    (l.filter q).find? p = l.find? p := by
  induction l with
  | nil => rfl
  | cons a l ih =>
    by_cases hq : q a
    · rw [List.filter_cons_of_pos hq]
      by_cases hp : p a
      · rw [List.find?_cons_of_pos _ hp, List.find?_cons_of_pos _ hp]
      · rw [List.find?_cons_of_neg _ hp, List.find?_cons_of_neg _ hp, ih]
    · rw [List.filter_cons_of_neg hq, ih]
      have hp : ¬ p a = true := fun hp => hq (himp a hp)
      rw [List.find?_cons_of_neg _ hp]

/-- When the images under `f` are pairwise distinct, at most one list entry
maps to any given value. -/
lemma countP_le_one_of_nodup_map {α β : Type} [BEq β] [LawfulBEq β]
    (l : List α) (f : α → β) (hnd : (l.map f).Nodup) (v : β) :
    l.countP (fun x => f x == v) ≤ 1 := by
  induction l with
  | nil => simp
  | cons a l ih =>
    rw [List.map_cons, List.nodup_cons] at hnd
    rw [List.countP_cons]
    by_cases hfa : (f a == v) = true
    · have hz : l.countP (fun x => f x == v) = 0 := by
        rw [List.countP_eq_zero]
        intro x hx hbeq
        have hfx : f x = v := by simpa using hbeq
        have hfav : f a = v := by simpa using hfa
        exact hnd.1 (by
          rw [hfav, ← hfx]
          exact List.mem_map_of_mem f hx)
      simp [hz, hfa]
    · have hrec := ih hnd.2
      simp [hfa]
      omega

/-- With at most one match in the list, searching the reversed list finds
the same element. -/
lemma find?_reverse_of_countP_le_one {α : Type} (l : List α) (p : α → Bool)
    (h : l.countP p ≤ 1) : l.reverse.find? p = l.find? p := by
  induction l with
  | nil => rfl
  | cons a l ih =>
    rw [List.reverse_cons, List.find?_append]
    by_cases hp : p a = true
    · have h0 : l.countP p = 0 := by
        rw [List.countP_cons_of_pos _ _ hp] at h
        omega
      have hnone : l.reverse.find? p = none := by
        rw [List.find?_eq_none]
        intro x hx hpx
        have hpos : 0 < l.countP p :=
          List.countP_pos_iff.mpr ⟨x, List.mem_reverse.mp hx, hpx⟩
        omega
      rw [hnone, Option.none_or, List.find?_cons_of_pos _ hp,
        List.find?_cons_of_pos _ hp]
    · have h1 : l.countP p ≤ 1 := by
        rw [List.countP_cons] at h
        omega
      rw [List.find?_cons_of_neg _ hp, List.find?_nil, Option.or_none,
        List.find?_cons_of_neg _ hp]
      exact ih h1

/-- With at most one match, `find?` returns any member that matches. -/
lemma find?_eq_some_of_countP_le_one {α : Type} (l : List α) (p : α → Bool)
    (e : α) (hmem : e ∈ l) (hpe : p e = true) (h : l.countP p ≤ 1) :
    l.find? p = some e := by
  induction l with
  | nil => cases hmem
  | cons a l ih =>
    by_cases hp : p a = true
    · rw [List.find?_cons_of_pos _ hp]
      rcases List.mem_cons.mp hmem with rfl | hmem2
      · rfl
      · exfalso
        have hpos : 0 < l.countP p := List.countP_pos_iff.mpr ⟨e, hmem2, hpe⟩
        rw [List.countP_cons_of_pos _ _ hp] at h
        omega
    · rw [List.find?_cons_of_neg _ hp]
      rcases List.mem_cons.mp hmem with rfl | hmem2
      · exact absurd hpe hp
      · refine ih hmem2 ?_
        rw [List.countP_cons_of_neg _ _ hp] at h
        exact h

/-- Equal mapped images give an elementwise relation between the lists. -/
lemma forall₂_of_map_eq {α β γ : Type} (f : α → γ) (g : β → γ) :
    ∀ (ts : List β) (es : List α), es.map f = ts.map g →
      List.Forall₂ (fun t e => f e = g t) ts es := by
  intro ts
  induction ts with
  | nil =>
    intro es h
    rw [List.map_nil] at h
    rw [List.map_eq_nil_iff.mp h]
    exact List.Forall₂.nil
  | cons t ts ih =>
    intro es h
    cases es with
    | nil => exact absurd h.symm (by simp)
    | cons e es =>
      rw [List.map_cons, List.map_cons, List.cons.injEq] at h
      exact List.Forall₂.cons h.1 (ih es h.2)

/-- Strengthen an elementwise relation with membership in the right list. -/
lemma forall₂_mem_right {α β : Type} (R : α → β → Prop) (ts : List α)
    (es : List β) (h : List.Forall₂ R ts es) :
    List.Forall₂ (fun t e => R t e ∧ e ∈ es) ts es := by
  induction h with
  | nil => exact List.Forall₂.nil
  | cons hab hrest ih =>
    exact List.Forall₂.cons ⟨hab, List.mem_cons_self _ _⟩
      (ih.imp fun a b hx => ⟨hx.1, List.mem_cons_of_mem _ hx.2⟩)

/-- Under the aligned-rendering hypotheses, the data-idx attributes of the
flow's elements are pairwise distinct. -/
lemma nodup_elements_dataIdx (tokens : List Token) (flow : FlowEl)
    (hmap : flow.elements.map (fun el => el.dataIdx) =
      tokens.map (fun t => some t.idx))
    (hnd : (tokens.map (fun t => t.idx)).Nodup) :
    (flow.elements.map (fun el => el.dataIdx)).Nodup := by
  rw [hmap]
  have hcomp : tokens.map (fun t => some t.idx) =
      (tokens.map (fun t => t.idx)).map some := by
    rw [List.map_map]
    rfl
  rw [hcomp]
  exact hnd.map (fun a b hab => Option.some.inj hab)

/-- Under the aligned-rendering hypotheses, every element carries a numeric
data-idx, so `querySelectorAll('[data-idx]')` returns the whole element
list. -/
lemma ordered_eq_elements (tokens : List Token) (flow : FlowEl)
    (hmap : flow.elements.map (fun el => el.dataIdx) =
      tokens.map (fun t => some t.idx)) :
    PaginateC.ordered flow = flow.elements := by
  rw [PaginateC.ordered, List.filter_eq_self]
  intro el hel
  have hmem : el.dataIdx ∈ flow.elements.map (fun e => e.dataIdx) :=
    List.mem_map_of_mem _ hel
  rw [hmap] at hmem
  obtain ⟨t, _, hts⟩ := List.mem_map.mp hmem
  rw [← hts]
  rfl

/-- Under the aligned-rendering hypotheses, each token's `querySelector`
lookup finds exactly the element aligned with it. -/
lemma corresponds (tokens : List Token) (flow : FlowEl)
    (hmap : flow.elements.map (fun el => el.dataIdx) =
      tokens.map (fun t => some t.idx))
    (hnd : (tokens.map (fun t => t.idx)).Nodup) :
    List.Forall₂ (fun t e => Paginate.querySelectorIdx flow t.idx = some e ∧
      e.dataIdx = some t.idx) tokens flow.elements := by
  have h1 : List.Forall₂ (fun (t : Token) (e : Elem) => e.dataIdx = some t.idx)
      tokens flow.elements :=
    forall₂_of_map_eq (fun el => el.dataIdx) (fun t => some t.idx)
      tokens flow.elements hmap
  have h2 := forall₂_mem_right _ tokens flow.elements h1
  refine h2.imp ?_
  intro t e hte
  obtain ⟨hde, hmem⟩ := hte
  refine ⟨?_, hde⟩
  rw [Paginate.querySelectorIdx]
  exact find?_eq_some_of_countP_le_one _ _ e hmem (by simp [hde])
    (countP_le_one_of_nodup_map _ _ (nodup_elements_dataIdx tokens flow hmap hnd) _)

/-- Aligned lists make the per-token and per-element anchor scans agree. -/
lemma findAnchor_equiv_aux (flow : FlowEl) (viewport : Viewport)
    (pageIndex : Int) :
    ∀ (ts : List Token) (es : List Elem),
      List.Forall₂ (fun t e => Paginate.querySelectorIdx flow t.idx = some e ∧
        e.dataIdx = some t.idx) ts es →
      Paginate.findAnchorTokenIndex ts flow viewport pageIndex =
        PaginateC.findAnchorTokenIndexAux es viewport pageIndex := by
  intro ts es h
  induction h with
  | nil => rfl
  | cons hte hrest ih =>
    rename_i t e ts' es'
    obtain ⟨hq, hde⟩ := hte
    rw [Paginate.findAnchorTokenIndex, PaginateC.findAnchorTokenIndexAux]
    simp only [hq]
    by_cases hp : Paginate.getTokenPageFromElement e viewport = pageIndex
    · rw [if_pos hp, if_pos hp, hde]
    · rw [if_neg hp, if_neg hp]
      exact ih

/-- Aligned lists make the per-token and per-element word counts agree. -/
lemma countWords_equiv_aux (flow : FlowEl) (viewport : Viewport)
    (pageIndex : Int) :
    ∀ (ts : List Token) (es : List Elem),
      List.Forall₂ (fun t e => Paginate.querySelectorIdx flow t.idx = some e ∧
        e.dataIdx = some t.idx) ts es →
      Paginate.countWordsForPage ts flow viewport pageIndex =
        PaginateC.countWordsForPageAux es viewport pageIndex := by
  intro ts es h
  induction h with
  | nil => rfl
  | cons hte hrest ih =>
    rename_i t e ts' es'
    obtain ⟨hq, hde⟩ := hte
    rw [Paginate.countWordsForPage, PaginateC.countWordsForPageAux]
    simp only [hq]
    rw [ih]
    rfl

/-- C10: refinement equivalence of the two Layout Probe implementations —
when the rendered elements carry numeric data-idx attributes aligned
one-to-one and in order with the token list, the querySelector-per-token
functions and the element-collection variants agree on every token index and
every page index. -/
theorem paginate_variants_equiv (tokens : List Token) (flow : FlowEl)
    (viewport : Viewport)
    (hmap : flow.elements.map (fun el => el.dataIdx) =
      tokens.map (fun t => some t.idx))
    (hnd : (tokens.map (fun t => t.idx)).Nodup) :
    (∀ tokenIdx : Int, Paginate.getTokenPageIndex tokenIdx flow viewport =
      PaginateC.getTokenPageIndex tokenIdx flow viewport) ∧
    (∀ pageIndex : Int,
      Paginate.findAnchorTokenIndex tokens flow viewport pageIndex =
        PaginateC.findAnchorTokenIndex flow viewport pageIndex) ∧
    (∀ pageIndex : Int,
      Paginate.countWordsForPage tokens flow viewport pageIndex =
        PaginateC.countWordsForPage flow viewport pageIndex) := by
  have hcorr := corresponds tokens flow hmap hnd
  have hordered := ordered_eq_elements tokens flow hmap
  have hcount : ∀ v, flow.elements.countP (fun el => el.dataIdx == v) ≤ 1 :=
    fun v => countP_le_one_of_nodup_map _ _
      (nodup_elements_dataIdx tokens flow hmap hnd) v
  refine ⟨?_, ?_, ?_⟩
  · intro tokenIdx
    rw [Paginate.getTokenPageIndex, PaginateC.getTokenPageIndex,
      PaginateC.byIndexGet, hordered,
      find?_reverse_of_countP_le_one _ _ (hcount (some tokenIdx)),
      Paginate.querySelectorIdx]
  · intro pageIndex
    rw [PaginateC.findAnchorTokenIndex, hordered]
    exact findAnchor_equiv_aux flow viewport pageIndex tokens flow.elements hcorr
  · intro pageIndex
    rw [PaginateC.countWordsForPage, hordered]
    exact countWords_equiv_aux flow viewport pageIndex tokens flow.elements hcorr

/-- Witness for C10: on the sample layout both anchor-scan implementations
pick token 1 for page 1. -/
theorem paginate_variants_equiv_witness :
    sampleFlow.elements.map (fun el => el.dataIdx) =
      sampleTokens.map (fun t => some t.idx) ∧
    (sampleTokens.map (fun t => t.idx)).Nodup ∧
    Paginate.findAnchorTokenIndex sampleTokens sampleFlow sampleViewport 1 =
      PaginateC.findAnchorTokenIndex sampleFlow sampleViewport 1 :=
  ⟨by decide, by decide,
    (paginate_variants_equiv sampleTokens sampleFlow sampleViewport
      (by decide) (by decide)).2.1 1⟩

/-- Witness for C1 at Scenario A (width 800, extent 2400, three pages). -/
theorem getPageCount_spec_witness :
    (0 : Int) ≤ sampleViewport.clientWidth ∧ (0 : Int) ≤ sampleFlow.scrollWidth ∧
    Paginate.getPageCount sampleViewport sampleFlow =
      ⌈(sampleFlow.scrollWidth : ℚ) / (sampleViewport.clientWidth : ℚ)⌉ :=
  ⟨by decide, by decide,
    (getPageCount_spec sampleViewport sampleFlow (by decide) (by decide)).2.2.1
      (by decide) (by decide)⟩
